import Mathlib

/-!
# trade-streamer decision core: a shallow embedding with proofs

This file embeds the deterministic decision core of the trade-streamer
repository in Lean 4 and proves (or refutes) the specified properties of
its risk sizing, scaling-plan construction, expiry resolution, option
pricing and contract selection.

Conventions of the embedding:
* JavaScript numbers are modelled as rationals (`ℚ`) wherever the source
  only performs field arithmetic, comparisons, `Math.floor`, `Math.ceil`
  and `Math.round`; transcendental code (`Math.exp`, `Math.log`,
  `Math.sqrt` in the Black-Scholes pricer and the `Math.log10` scores of
  the selector) is modelled over the reals (`ℝ`).
* A JavaScript value that may be `null`/`undefined`/non-finite where the
  code checks `Number.isFinite` is modelled as an `Option`.
* Calendar dates are modelled by their epoch day number (days since
  1970-01-01, a Thursday); `Date.prototype.getUTCDay` becomes
  `(day + 4) % 7` with `0 = Sunday`.  An invalid JavaScript `Date`
  (`new Date("garbage")`) is `none` of type `Option ℤ`.
* `Number.prototype.toFixed(2)` rounds to the nearest multiple of `1/100`
  with ties away from zero for positive inputs, i.e. `⌊100·x + 1/2⌋/100`.
-/

namespace TradeStreamer

/-! ## Risk sizing (`src/risk.js`)

`computeQty` returns an object without the `adjustedRiskPct`/`riskBudget`
fields on its `perContractRisk <= 0` early return, so those fields are
`Option`-valued here.  The JavaScript guard `!isFinite(qty)` is
identically false over `ℚ` and is therefore dropped; the `qty < 0` part
of that guard is kept verbatim. -/

structure RiskResult where
  qty : ℚ
  perContractRisk : ℚ
  totalRisk : ℚ
  adjustedRiskPct : Option ℚ
  riskBudget : Option ℚ
deriving DecidableEq

/-- The `switch (strategy)` adjustment of the risk percentage in
`computeQty` (src/risk.js lines 9-25). -/
def adjustedRiskPct (strategy : String) (riskPct : ℚ) : ℚ :=
  if strategy = "day_trade" then min riskPct (1/100)
  else if strategy = "swing_trade" then min (riskPct * (3/2)) (1/50)
  else if strategy = "scalping" then min riskPct (1/500)
  else riskPct

/-- The `switch (strategy)` adjustment of the maximum contract count in
`computeQty` (src/risk.js lines 9-25). -/
def adjustedMaxContracts (strategy : String) (maxContracts : ℚ) : ℚ :=
  if strategy = "day_trade" then min maxContracts 5
  else if strategy = "swing_trade" then min maxContracts 10
  else if strategy = "scalping" then min maxContracts 2
  else maxContracts

/-- `computeQty` from src/risk.js. -/
def computeQty (accountSize riskPct entry stop multiplier maxContracts : ℚ)
    (strategy : String) : RiskResult :=
  let perContractRisk := max 0 (entry - stop) * multiplier
  if perContractRisk ≤ 0 then
    { qty := 0, perContractRisk := 0, totalRisk := 0,
      adjustedRiskPct := none, riskBudget := none }
  else
    let adj := adjustedRiskPct strategy riskPct
    let adjMax := adjustedMaxContracts strategy maxContracts
    let riskBudget := accountSize * adj
    let q0 : ℚ := (⌊riskBudget / perContractRisk⌋ : ℤ)
    let q1 := if q0 < 0 then 0 else q0
    let q := min q1 adjMax
    { qty := q, perContractRisk := perContractRisk, totalRisk := q * perContractRisk,
      adjustedRiskPct := some adj, riskBudget := some riskBudget }

/-! ## Scaling plan (`buildScalingPlan` in src/cli/ai-agent.js)

The plan quantity is the integer `qty` produced by `computeQty` (the data
model declares `quantity: integer ≥ 0`), so `Math.round` inside
`addIteration` is the identity on it and the `Number.isFinite(qty)` guard
only leaves the `qty ≤ 0` test.  `entry` and `takeProfit` are the finite
numbers the claim quantifies over, so the `Number.isFinite` guards on them
are identically true and every iteration's target is non-null. -/

structure PlanIteration where
  sellQty : ℤ
  target : Option ℚ
  note : String
deriving DecidableEq

structure ScalingPlan where
  qty : ℤ
  stop : ℚ
  iterations : List PlanIteration
deriving DecidableEq

/-- `Number(x.toFixed(2))`: round to the nearest multiple of `1/100`,
ties resolved upward (the ECMAScript `toFixed` picks the larger integer
on a tie). -/
def round2 (x : ℚ) : ℚ := ((⌊x * 100 + 1/2⌋ : ℤ) : ℚ) / 100

/-- `buildScalingPlan` from src/cli/ai-agent.js (lines 178-230). -/
def buildScalingPlan (qty : ℤ) (entry takeProfit stop : ℚ) : ScalingPlan :=
  if qty ≤ 0 then { qty := qty, stop := stop, iterations := [] }
  else
    let baseTarget := round2 takeProfit
    let diff := baseTarget - entry
    let scaledTarget := fun (factor : ℚ) => round2 (entry + diff * factor)
    if qty = 1 then
      ⟨qty, stop,
        [⟨1, some baseTarget,
          "Exit full position at target or earlier if momentum fades."⟩]⟩
    else
      let firstQty := max 1 ⌈(qty : ℚ) * (1/2)⌉
      let first : PlanIteration :=
        ⟨firstQty, some baseTarget,
          "Scale out half and move stop to breakeven once target prints."⟩
      let remaining := qty - firstQty
      if remaining ≤ 0 then ⟨qty, stop, [first]⟩
      else if remaining = 1 then
        ⟨qty, stop,
          [first, ⟨1, some (scaledTarget (13/10)),
            "Let final runner stretch; trail stop below last higher low."⟩]⟩
      else
        let secondQty := max 1 ⌊(remaining : ℚ) / 2⌋
        let second : PlanIteration :=
          ⟨secondQty, some (scaledTarget (13/10)),
            "Take additional profits if extension continues; trail stop under VWAP."⟩
        let rem2 := remaining - secondQty
        if 0 < rem2 then
          ⟨qty, stop,
            [first, second, ⟨rem2, some (scaledTarget (8/5)),
              "Leave final runner for outsized move; ratchet stop up aggressively."⟩]⟩
        else ⟨qty, stop, [first, second]⟩

/-! ## 0DTE expiry (`next0DTEExpiry` in src/strategy/options.js) -/

/-- `Date.prototype.getUTCDay` on an epoch day number (0 = Sunday;
1970-01-01, epoch day 0, was a Thursday). -/
def dayOfWeekOf (day : ℤ) : ℤ := (day + 4) % 7

/-- `isWeekend` from src/strategy/options.js. -/
def isWeekend (day : ℤ) : Bool := dayOfWeekOf day == 0 || dayOfWeekOf day == 6

/-- `next0DTEExpiry` from src/strategy/options.js (lines 51-60): `now` is
split into its calendar day and the hour that `now.getHours()` reads (the
source comment equates hour 20 with the 4 PM ET close).  At or after the
cutoff the code adds one calendar day with no weekend check. -/
def next0DTEExpiry (today : ℤ) (hour : ℕ) : ℤ :=
  if 20 ≤ hour then today + 1 else today

/-! ## Option quote selector

`midPrice`, `pickNearestStrike` and `selectOptimalOption` are exported by
the strategy selector module required as `../strategy/selector` by the
feeders and CLI (the claims cite the copy of this code inside
src/runner/market-snapshot-feeder.js at lines 561-653).  A quote field
that is absent or fails the source's `Number.isFinite` test is `none`. -/

structure OptQuote where
  type : String
  strike : Option ℚ
  bid : Option ℚ
  ask : Option ℚ
  last : Option ℚ
  delta : Option ℚ
  oi : Option ℚ
  vol : Option ℚ
deriving DecidableEq

/-- `midPrice`: the source requires `a >= b && a > 0` (`bid` may be zero
or negative), then falls back to `last`, then `ask`, then `bid`. -/
def midPrice (q : OptQuote) : Option ℚ :=
  match q.bid, q.ask with
  | some b, some a =>
      if b ≤ a ∧ 0 < a then some ((b + a) / 2)
      else
        match q.last with
        | some l => some l
        | none => some a
  | _, _ =>
      match q.last with
      | some l => some l
      | none =>
          match q.ask with
          | some a => some a
          | none => q.bid

/-- The amended mid-price specification, written as the spec's priority
chain: `(bid+ask)/2` when both sides are present with `ask ≥ bid` and
`ask > 0` (amended from the spec's `ask ≥ bid > 0`); else `last`; else
whichever single one of `ask`/`bid` is present; else no usable mid. -/
def midPriceSpec (q : OptQuote) : Option ℚ :=
  match q.bid, q.ask, q.last with
  | some b, some a, l =>
      if b ≤ a ∧ 0 < a then some ((b + a) / 2)
      else
        match l with
        | some l0 => some l0
        | none => some a
  | none, some _, some l => some l
  | some _, none, some l => some l
  | none, none, some l => some l
  | none, some a, none => some a
  | some b, none, none => some b
  | none, none, none => none

/-- The effective option type of a side string in the selector:
`side.toUpperCase() === 'PUT' ? 'PUT' : 'CALL'`. -/
def sideType (side : String) : String :=
  if side.toUpper = "PUT" then "PUT" else "CALL"

/-- The signed delta target inside `selectOptimalOption`: the sign of the
caller-supplied `targetDelta` is discarded and rederived from the type. -/
def deltaTargetOf (type : String) (targetDelta : ℚ) : ℚ :=
  if type = "PUT" then -|targetDelta| else |targetDelta|

/-- `deltaScore` of a candidate: neutral `0.25` when delta is missing,
otherwise full credit decaying linearly to zero at `0.2` away. -/
def deltaScoreOf (q : OptQuote) (type : String) (targetDelta : ℚ) : ℚ :=
  match q.delta with
  | none => 1/4
  | some d => max 0 (1 - |d - deltaTargetOf type targetDelta| / (2/10))

/-- The candidate's spread percentage: `max 0 (ask-bid) / mid` when both
sides are present, otherwise exactly `maxSpreadPct`. -/
def spreadPctOf (q : OptQuote) (maxSpreadPct mid : ℚ) : ℚ :=
  match q.bid, q.ask with
  | some b, some a => max 0 (a - b) / mid
  | _, _ => maxSpreadPct

/-- The candidate's spread score:
`max 0 (1 - spreadPct / max maxSpreadPct 0.01)`. -/
def spreadScoreOf (q : OptQuote) (maxSpreadPct mid : ℚ) : ℚ :=
  max 0 (1 - spreadPctOf q maxSpreadPct mid / max maxSpreadPct (1/100))

/-- `oiScore`: missing open interest is coerced to `0` by the source. -/
noncomputable def oiScoreOf (q : OptQuote) (minOpenInterest : ℚ) : ℝ :=
  min 1 (Real.logb 10 ((q.oi.getD 0 : ℚ) + 1) / Real.logb 10 ((minOpenInterest : ℚ) + 10))

/-- `volScore`: missing volume is coerced to `0` by the source. -/
noncomputable def volScoreOf (q : OptQuote) : ℝ :=
  min 1 (Real.logb 10 ((q.vol.getD 0 : ℚ) + 1) / Real.logb 10 1000)

/-- The `_metrics` record attached to the winning candidate. -/
structure SelMetrics where
  spread : Option ℚ
  spreadPct : ℚ
  mid : ℚ
  deltaScore : ℚ
  spreadScore : ℚ
  oiScore : ℝ
  volScore : ℝ
  totalScore : ℝ

/-- The per-candidate metric block of `selectOptimalOption`. -/
noncomputable def metricsOf (q : OptQuote) (type : String)
    (targetDelta maxSpreadPct minOpenInterest mid : ℚ) : SelMetrics :=
  let spread : Option ℚ :=
    match q.bid, q.ask with
    | some b, some a => some (max 0 (a - b))
    | _, _ => none
  let ds := deltaScoreOf q type targetDelta
  let ss := spreadScoreOf q maxSpreadPct mid
  let os := oiScoreOf q minOpenInterest
  let vs := volScoreOf q
  ⟨spread, spreadPctOf q maxSpreadPct mid, mid, ds, ss, os, vs,
    (ds : ℝ) * (45/100) + (ss : ℝ) * (3/10) + os * (15/100) + vs * (1/10)⟩

/-- The scan loop of `selectOptimalOption`: skip non-matching types and
candidates without a positive usable mid; otherwise keep the strictly
highest-scoring candidate (the first one on ties, as in the source where
only `totalScore > bestScore` replaces the best). -/
noncomputable def selectGo (type : String) (targetDelta maxSpreadPct minOpenInterest : ℚ) :
    List OptQuote → Option (OptQuote × SelMetrics) → Option (OptQuote × SelMetrics)
  | [], best => best
  | q :: rest, best =>
      if q.type ≠ type then selectGo type targetDelta maxSpreadPct minOpenInterest rest best
      else
        match midPrice q with
        | none => selectGo type targetDelta maxSpreadPct minOpenInterest rest best
        | some mid =>
            if mid ≤ 0 then selectGo type targetDelta maxSpreadPct minOpenInterest rest best
            else
              let m := metricsOf q type targetDelta maxSpreadPct minOpenInterest mid
              match best with
              | none => selectGo type targetDelta maxSpreadPct minOpenInterest rest (some (q, m))
              | some (p, bm) =>
                  if bm.totalScore < m.totalScore then
                    selectGo type targetDelta maxSpreadPct minOpenInterest rest (some (q, m))
                  else selectGo type targetDelta maxSpreadPct minOpenInterest rest (some (p, bm))

/-- `selectOptimalOption` from the selector module. -/
noncomputable def selectOptimalOption (options : List OptQuote) (side : String)
    (targetDelta maxSpreadPct minOpenInterest : ℚ) : Option (OptQuote × SelMetrics) :=
  selectGo (sideType side) targetDelta maxSpreadPct minOpenInterest options none

/-! ## Black-Scholes pricer (src/strategy/options.js lines 102-129)

`Math.exp`, `Math.log` and `Math.sqrt` are modelled over `ℝ`, so the
pricer is the exact-real reading of the source. -/

/-- The Abramowitz-Stegun 7.1.26 polynomial part of `erf`:
`(((((a5*t + a4)*t) + a3)*t + a2)*t + a1)*t` with the coefficients of the
source. -/
noncomputable def asP (t : ℝ) : ℝ :=
  (((((1061405429/1000000000) * t + (-1453152027/1000000000)) * t + 1421413741/1000000000) * t
    + (-284496736/1000000000)) * t + 254829592/1000000000) * t

/-- Proof artefact: the derivative of `asP`, used to establish that `asP`
is monotone on `[0,1]`. -/
noncomputable def asPd (t : ℝ) : ℝ :=
  254829592/1000000000 + 2 * (-284496736/1000000000) * t + 3 * (1421413741/1000000000) * t^2
    + 4 * (-1453152027/1000000000) * t^3 + 5 * (1061405429/1000000000) * t^4

/-- `t = 1/(1 + p*ax)` inside `erf`, with `p = 0.3275911`. -/
noncomputable def erfArgT (a : ℝ) : ℝ := 1 / (1 + (3275911/10000000) * a)

/-- `erf` from src/strategy/options.js (lines 108-117): the numerical
Abramowitz-Stegun 7.1.26 approximation; `Math.sign` is the three-valued
sign and `ax = Math.abs(x)`. -/
noncomputable def erf (x : ℝ) : ℝ :=
  (if x < 0 then (-1:ℝ) else if 0 < x then 1 else 0) *
    (1 - asP (erfArgT |x|) * Real.exp (-(|x| * |x|)))

/-- `normCdf` from src/strategy/options.js (lines 103-106):
`0.5 * (1 + erf(x / Math.SQRT2))`. -/
noncomputable def normCdf (x : ℝ) : ℝ := 1/2 * (1 + erf (x / Real.sqrt 2))

/-- Proof artefact: `normCdf x · e^(x²/2)`.  The sign of the
Black-Scholes expression reduces to the monotonicity of this function. -/
noncomputable def gAux (x : ℝ) : ℝ := normCdf x * Real.exp (x^2/2)

inductive OptionSide
  | call
  | put
deriving DecidableEq

/-- `bsOptionPrice` from src/strategy/options.js (lines 119-129). -/
noncomputable def bsOptionPrice (S K T r sigma : ℝ) (side : OptionSide) : ℝ :=
  if T ≤ 0 ∨ sigma ≤ 0 then
    max 0 (match side with | OptionSide.call => S - K | OptionSide.put => K - S)
  else
    let d1 := (Real.log (S / K) + (r + 1/2 * sigma * sigma) * T) / (sigma * Real.sqrt T)
    let d2 := d1 - sigma * Real.sqrt T
    match side with
    | OptionSide.call => S * normCdf d1 - K * Real.exp (-(r * T)) * normCdf d2
    | OptionSide.put => K * Real.exp (-(r * T)) * normCdf (-d2) - S * normCdf (-d1)

/-! ## Expiry machinery, contract picking and suggestion building
(src/strategy/options.js)

Dates are epoch day numbers; `civilFromDays`/`daysFromCivil` are the
standard Gregorian conversions used to model the `Date` accessors (the
process is assumed to run with a UTC local clock, as the source's
`getHours() >= 20 // 8 PM UTC = 4 PM ET` comment presumes).  A JavaScript
`Date` value is `Option ℤ` with `none` for an Invalid Date, so the parse
result of an override string is `Option (Option ℤ)`: `none` when absent or
falsy, `some none` when present but unparseable (`new Date(s)` yields an
Invalid Date rather than throwing), `some (some day)` when parseable.
`formatExpiryISO` renders an Invalid Date as `"NaN-NaN-NaN"` exactly as
the source's template string does.  `buildSuggestion` reparses the
rendered expiry as `expiry + "T20:00:00Z"`; for a validly rendered
`YYYY-MM-DD` this is the same day at 20:00 UTC, which `resolvedExpiryDay`
models directly (the unparseable-override case, where the source's
arithmetic degenerates to `NaN`, is settled on `pickContract`). -/

def civilFromDays (z : ℤ) : ℤ × ℤ × ℤ :=
  let z2 := z + 719468
  let era := Int.fdiv z2 146097
  let doe := z2 - era * 146097
  let yoe := (doe - doe / 1460 + doe / 36524 - doe / 146096) / 365
  let y := yoe + era * 400
  let doy := doe - (365 * yoe + yoe / 4 - yoe / 100)
  let mp := (5 * doy + 2) / 153
  let d := doy - (153 * mp + 2) / 5 + 1
  let m := mp + (if mp < 10 then 3 else -9)
  (y + (if m ≤ 2 then 1 else 0), m, d)

def daysFromCivil (y m d : ℤ) : ℤ :=
  let y2 := y - (if m ≤ 2 then 1 else 0)
  let era := Int.fdiv y2 400
  let yoe := y2 - era * 400
  let mp := m + (if 2 < m then -3 else 9)
  let doy := (153 * mp + 2) / 5 + d - 1
  let doe := yoe * 365 + yoe / 4 - yoe / 100 + doy
  era * 146097 + doe - 719468

def pad2 (n : ℤ) : String := if n < 10 then "0" ++ toString n else toString n

def formatExpiryISO (d : Option ℤ) : String :=
  match d with
  | none => "NaN-NaN-NaN"
  | some day =>
      let c := civilFromDays day
      toString c.1 ++ "-" ++ pad2 c.2.1 ++ "-" ++ pad2 c.2.2

def businessDaysUntil (f t : ℤ) : ℕ :=
  if h : f < t then (if isWeekend f then 0 else 1) + businessDaysUntil (f + 1) t
  else 0
termination_by (t - f).toNat
decreasing_by omega

def nextWeeklyExpiry (minBusinessDays : ℤ) (today : ℤ) : ℤ :=
  let day := dayOfWeekOf today
  let k := (5 - day + 7) % 7
  let daysToFri := if k = 0 then 7 else k
  let candidate := today + daysToFri
  if (businessDaysUntil today candidate : ℤ) < minBusinessDays then candidate + 7
  else candidate

def lastFridayOnOrBefore (day : ℤ) : ℤ := day - (dayOfWeekOf day - 5) % 7

def nextMonthlyExpiry (today : ℤ) : ℤ :=
  let c := civilFromDays today
  let endOfMonth := if 15 < c.2.2 then daysFromCivil c.1 (c.2.1 + 2) 0
    else daysFromCivil c.1 (c.2.1 + 1) 0
  lastFridayOnOrBefore endOfMonth

def getExpiryByType (expiryType : String) (minBusinessDays : ℤ) (today : ℤ) (hour : ℕ) : ℤ :=
  if expiryType = "0dte" then next0DTEExpiry today hour
  else if expiryType = "monthly" then nextMonthlyExpiry today
  else nextWeeklyExpiry minBusinessDays today

def ceilStrike (price increment : ℚ) : ℚ := (⌈price / increment⌉ : ℤ) * increment

def floorStrike (price increment : ℚ) : ℚ := (⌊price / increment⌋ : ℤ) * increment

def strikeOf (side : OptionSide) (price otmPct increment : ℚ) : ℚ :=
  match side with
  | OptionSide.call => ceilStrike (price * (1 + otmPct)) increment
  | OptionSide.put => floorStrike (price * (1 - otmPct)) increment

structure OptionConf where
  multiplier : ℚ
  strikeIncrement : ℚ
deriving DecidableEq

def OPTION_CONFIG (symbol : String) : Option OptionConf :=
  if symbol = "SPY" ∨ symbol = "QQQ" ∨ symbol = "AAPL" ∨ symbol = "TSLA" ∨
      symbol = "GOOGL" ∨ symbol = "NVDA" then some ⟨100, 1⟩
  else none

structure Contract where
  symbol : String
  side : OptionSide
  strike : ℚ
  expiry : String
  strikeIncrement : ℚ
  multiplier : ℚ
deriving DecidableEq

def pickContractExpiry (expiryOverride : Option (Option ℤ)) (expiryType : String)
    (minBusinessDays today : ℤ) (hour : ℕ) : Option ℤ :=
  match expiryOverride with
  | some parsed => parsed
  | none => some (getExpiryByType expiryType minBusinessDays today hour)

def pickContract (symbol : String) (side : OptionSide) (underlyingPrice otmPct : ℚ)
    (expiryOverride : Option (Option ℤ)) (expiryType : String) (minBusinessDays today : ℤ)
    (hour : ℕ) : Except String Contract :=
  match OPTION_CONFIG symbol with
  | none => Except.error ("Unsupported symbol for options config: " ++ symbol)
  | some conf =>
      Except.ok ⟨symbol, side, strikeOf side underlyingPrice otmPct conf.strikeIncrement,
        formatExpiryISO (pickContractExpiry expiryOverride expiryType minBusinessDays today hour),
        conf.strikeIncrement, conf.multiplier⟩

noncomputable def round2R (x : ℝ) : ℝ := ((⌊x * 100 + 1/2⌋ : ℤ) : ℝ) / 100

def resolvedExpiryDay (expiryOverride : Option ℤ) (expiryType : String)
    (minBusinessDays today : ℤ) (hour : ℕ) : ℤ :=
  match expiryOverride with
  | some d => d
  | none => getExpiryByType expiryType minBusinessDays today hour

noncomputable def suggestionT (expiryOverride : Option ℤ) (expiryType : String)
    (minBusinessDays nowMs : ℤ) : ℝ :=
  let today := Int.fdiv nowMs 86400000
  let hour := (Int.fdiv nowMs 3600000 % 24).toNat
  let expMs := resolvedExpiryDay expiryOverride expiryType minBusinessDays today hour *
    86400000 + 72000000
  ((max 0 (expMs - nowMs) : ℤ) : ℝ) / (365 * 24 * 60 * 60 * 1000)

noncomputable def suggestionEntry (side : OptionSide) (price iv r otmPct increment : ℚ)
    (expiryOverride : Option ℤ) (expiryType : String) (minBusinessDays nowMs : ℤ) : ℝ :=
  bsOptionPrice (price : ℝ) ((strikeOf side price otmPct increment : ℚ) : ℝ)
    (suggestionT expiryOverride expiryType minBusinessDays nowMs) (r : ℝ) (iv : ℝ) side

noncomputable def suggestionStopOf (entry : ℝ) (stopLossPct : ℚ) : ℝ :=
  max (1/100) (entry * (1 - (stopLossPct : ℝ)))

noncomputable def suggestionTargetOf (entry : ℝ) (takeProfitMult : ℚ) : ℝ :=
  entry * (1 + (takeProfitMult : ℝ))

structure Suggestion where
  symbol : String
  side : OptionSide
  expiry : String
  strike : ℚ
  multiplier : ℚ
  est_entry : ℝ
  stop : ℝ
  take_profit : ℝ

noncomputable def buildSuggestion (symbol : String) (side : OptionSide)
    (underlyingPrice iv r otmPct stopLossPct takeProfitMult : ℚ)
    (expiryOverride : Option ℤ) (expiryType : String) (minBusinessDays nowMs : ℤ) :
    Except String Suggestion :=
  let today := Int.fdiv nowMs 86400000
  let hour := (Int.fdiv nowMs 3600000 % 24).toNat
  match pickContract symbol side underlyingPrice otmPct (expiryOverride.map some)
      expiryType minBusinessDays today hour with
  | Except.error e => Except.error e
  | Except.ok base =>
      let entry := suggestionEntry side underlyingPrice iv r otmPct base.strikeIncrement
        expiryOverride expiryType minBusinessDays nowMs
      Except.ok ⟨symbol, side, base.expiry, base.strike, base.multiplier,
        round2R entry, round2R (suggestionStopOf entry stopLossPct),
        round2R (suggestionTargetOf entry takeProfitMult)⟩

end TradeStreamer

namespace TradeStreamer

theorem adjustedRiskPct_nonneg (s : String) (r : ℚ) (hr : 0 ≤ r) :
    0 ≤ adjustedRiskPct s r := by
  unfold adjustedRiskPct
  split_ifs
  · exact le_min hr (by norm_num)
  · exact le_min (by linarith) (by norm_num)
  · exact le_min hr (by norm_num)
  · exact hr

/-- C1 counterexample: with a negative caller-supplied `maxContracts`
(which the claim does not exclude) and all of the claim hypotheses
satisfied (`entry > stop`, positive multiplier, non-negative finite
`accountSize` and `riskPct`), `computeQty` returns a negative quantity,
refuting "quantity is a non-negative integer". -/
theorem computeQty_negative_qty_counterexample :
    0 < (computeQty 1000 (1/100) 1 0 100 (-1) "default").perContractRisk ∧
    (computeQty 1000 (1/100) 1 0 100 (-1) "default").qty = -1 := by
  have h1 : ("default" : String) ≠ "day_trade" := by decide
  have h2 : ("default" : String) ≠ "swing_trade" := by decide
  have h3 : ("default" : String) ≠ "scalping" := by decide
  constructor <;>
    norm_num [computeQty, adjustedRiskPct, adjustedMaxContracts, h1, h2, h3]

theorem computeQty_qty_eq (a r e s m mc : ℚ) (st : String)
    (h : ¬ (max 0 (e - s) * m ≤ 0)) :
    (computeQty a r e s m mc st).qty =
      min (if ((⌊(a * adjustedRiskPct st r) / (max 0 (e - s) * m)⌋ : ℤ) : ℚ) < 0 then 0
           else ((⌊(a * adjustedRiskPct st r) / (max 0 (e - s) * m)⌋ : ℤ) : ℚ))
        (adjustedMaxContracts st mc) := by
  simp [computeQty, h]

theorem computeQty_pcr_eq (a r e s m mc : ℚ) (st : String)
    (h : ¬ (max 0 (e - s) * m ≤ 0)) :
    (computeQty a r e s m mc st).perContractRisk = max 0 (e - s) * m := by
  simp [computeQty, h]

theorem computeQty_budget_eq (a r e s m mc : ℚ) (st : String)
    (h : ¬ (max 0 (e - s) * m ≤ 0)) :
    (computeQty a r e s m mc st).riskBudget = some (a * adjustedRiskPct st r) := by
  simp [computeQty, h]

theorem adjustedMaxContracts_nat (st : String) (M : ℕ) :
    ∃ k : ℕ, adjustedMaxContracts st (M : ℚ) = (k : ℚ) := by
  unfold adjustedMaxContracts
  split_ifs
  · exact ⟨min M 5, by push_cast; rfl⟩
  · exact ⟨min M 10, by push_cast; rfl⟩
  · exact ⟨min M 2, by push_cast; rfl⟩
  · exact ⟨M, rfl⟩

/-- C1 (amended): when `maxContracts` is additionally a non-negative
integer, the sizing invariant holds: the quantity times the per-contract
risk stays within the risk budget, the quantity never exceeds the
strategy-adjusted maximum, and it is a non-negative integer. -/
theorem computeQty_sizing_invariant
    (accountSize riskPct entry stop multiplier : ℚ) (M : ℕ) (strategy : String)
    (hA : 0 ≤ accountSize) (hR : 0 ≤ riskPct) (hs : stop < entry) (hm : 0 < multiplier) :
    0 < (computeQty accountSize riskPct entry stop multiplier (M : ℚ) strategy).perContractRisk ∧
    (computeQty accountSize riskPct entry stop multiplier (M : ℚ) strategy).riskBudget =
      some (accountSize * adjustedRiskPct strategy riskPct) ∧
    (computeQty accountSize riskPct entry stop multiplier (M : ℚ) strategy).qty *
        (computeQty accountSize riskPct entry stop multiplier (M : ℚ) strategy).perContractRisk ≤
      accountSize * adjustedRiskPct strategy riskPct ∧
    (computeQty accountSize riskPct entry stop multiplier (M : ℚ) strategy).qty ≤
      adjustedMaxContracts strategy (M : ℚ) ∧
    0 ≤ (computeQty accountSize riskPct entry stop multiplier (M : ℚ) strategy).qty ∧
    ∃ n : ℕ, (computeQty accountSize riskPct entry stop multiplier (M : ℚ) strategy).qty = (n : ℚ) := by
  have hpcr : (0:ℚ) < max 0 (entry - stop) * multiplier := by
    have h1 : (0:ℚ) < entry - stop := by linarith
    have h2 : max 0 (entry - stop) = entry - stop := max_eq_right (le_of_lt h1)
    rw [h2]; positivity
  have hnot : ¬ (max 0 (entry - stop) * multiplier ≤ 0) := not_le.mpr hpcr
  have hqty := computeQty_qty_eq accountSize riskPct entry stop multiplier (M : ℚ) strategy hnot
  have hpcreq := computeQty_pcr_eq accountSize riskPct entry stop multiplier (M : ℚ) strategy hnot
  have hbud := computeQty_budget_eq accountSize riskPct entry stop multiplier (M : ℚ) strategy hnot
  have hadjnn : 0 ≤ adjustedRiskPct strategy riskPct :=
    adjustedRiskPct_nonneg strategy riskPct hR
  have hbudgetnn : 0 ≤ accountSize * adjustedRiskPct strategy riskPct := mul_nonneg hA hadjnn
  have hfloornn : (0:ℤ) ≤
      ⌊(accountSize * adjustedRiskPct strategy riskPct) / (max 0 (entry - stop) * multiplier)⌋ :=
    Int.floor_nonneg.mpr (div_nonneg hbudgetnn (le_of_lt hpcr))
  have hq0 : ¬ (((⌊(accountSize * adjustedRiskPct strategy riskPct) /
        (max 0 (entry - stop) * multiplier)⌋ : ℤ) : ℚ) < 0) := by
    push_neg; exact_mod_cast hfloornn
  rw [if_neg hq0] at hqty
  obtain ⟨k, hk⟩ := adjustedMaxContracts_nat strategy M
  have hfloor_le : ((⌊(accountSize * adjustedRiskPct strategy riskPct) /
        (max 0 (entry - stop) * multiplier)⌋ : ℤ) : ℚ) ≤
      (accountSize * adjustedRiskPct strategy riskPct) / (max 0 (entry - stop) * multiplier) :=
    Int.floor_le _
  refine ⟨by rw [hpcreq]; exact hpcr, hbud, ?_, ?_, ?_, ?_⟩
  · rw [hqty, hpcreq]
    calc min ((⌊(accountSize * adjustedRiskPct strategy riskPct) /
            (max 0 (entry - stop) * multiplier)⌋ : ℤ) : ℚ)
          (adjustedMaxContracts strategy (M : ℚ)) * (max 0 (entry - stop) * multiplier)
        ≤ ((accountSize * adjustedRiskPct strategy riskPct) /
            (max 0 (entry - stop) * multiplier)) * (max 0 (entry - stop) * multiplier) := by
          exact mul_le_mul_of_nonneg_right (le_trans (min_le_left _ _) hfloor_le)
            (le_of_lt hpcr)
      _ = accountSize * adjustedRiskPct strategy riskPct :=
          div_mul_cancel₀ _ (ne_of_gt hpcr)
  · rw [hqty]; exact min_le_right _ _
  · rw [hqty]
    have h0 : (0:ℚ) ≤ ((⌊(accountSize * adjustedRiskPct strategy riskPct) /
        (max 0 (entry - stop) * multiplier)⌋ : ℤ) : ℚ) := by exact_mod_cast hfloornn
    have h1 : (0:ℚ) ≤ adjustedMaxContracts strategy (M : ℚ) := by rw [hk]; positivity
    exact le_min h0 h1
  · refine ⟨min (⌊(accountSize * adjustedRiskPct strategy riskPct) /
        (max 0 (entry - stop) * multiplier)⌋).toNat k, ?_⟩
    rw [hqty, hk, ← Int.toNat_of_nonneg hfloornn]
    push_cast
    rfl

/-- Witness for `computeQty_sizing_invariant` at a concrete input. -/
theorem computeQty_sizing_invariant_witness :
    (0:ℚ) ≤ 1000 ∧ (0:ℚ) ≤ 1/100 ∧ (1/2:ℚ) < 1 ∧ (0:ℚ) < 100 ∧
    ((computeQty 1000 (1/100) 1 (1/2) 100 ((5:ℕ) : ℚ) "day_trade").qty *
        (computeQty 1000 (1/100) 1 (1/2) 100 ((5:ℕ) : ℚ) "day_trade").perContractRisk ≤
      1000 * adjustedRiskPct "day_trade" (1/100)) := by
  refine ⟨by norm_num, by norm_num, by norm_num, by norm_num, ?_⟩
  exact (computeQty_sizing_invariant 1000 (1/100) 1 (1/2) 100 5 "day_trade"
    (by norm_num) (by norm_num) (by norm_num) (by norm_num)).2.2.1

/-- C2 counterexample: for the `swing_trade` strategy the "cap" on the
risk percentage loosens a stricter caller value: with `riskPct = 1%` the
adjusted risk percentage is `1.5%` > `1%`. -/
theorem adjustedRiskPct_swing_loosens :
    adjustedRiskPct "swing_trade" (1/100) = 3/200 ∧ (1/100 : ℚ) < 3/200 := by
  have h1 : ("swing_trade" : String) ≠ "day_trade" := by decide
  constructor
  · norm_num [adjustedRiskPct, h1]
  · norm_num

/-- C2 (amended): the `maxContracts` cap only tightens for every strategy,
and the `riskPct` cap only tightens for every strategy other than
`swing_trade`; for `swing_trade` the adjusted risk percentage is
`min(1.5·riskPct, 2%)`, which may exceed the caller's `riskPct` but never
exceeds `max(riskPct, 2%)`. -/
theorem adjustedCaps_tighten (s : String) (r m : ℚ) (h : s ≠ "swing_trade") :
    adjustedRiskPct s r ≤ r ∧ adjustedMaxContracts s m ≤ m ∧
    adjustedRiskPct "swing_trade" r = min (r * (3/2)) (1/50) ∧
    adjustedRiskPct "swing_trade" r ≤ max r (1/50) ∧
    adjustedMaxContracts "swing_trade" m ≤ m := by
  have hd : ("swing_trade" : String) ≠ "day_trade" := by decide
  have hswing : adjustedRiskPct "swing_trade" r = min (r * (3/2)) (1/50) := by
    unfold adjustedRiskPct
    rw [if_neg hd, if_pos rfl]
  have hmaxc : adjustedMaxContracts "swing_trade" m = min m 10 := by
    unfold adjustedMaxContracts
    rw [if_neg hd, if_pos rfl]
  refine ⟨?_, ?_, hswing, ?_, ?_⟩
  · unfold adjustedRiskPct
    by_cases h1 : s = "day_trade"
    · rw [if_pos h1]; exact min_le_left _ _
    · rw [if_neg h1, if_neg h]
      by_cases h3 : s = "scalping"
      · rw [if_pos h3]; exact min_le_left _ _
      · rw [if_neg h3]
  · unfold adjustedMaxContracts
    split_ifs <;> first | exact min_le_left _ _ | exact le_refl m
  · rw [hswing]
    exact le_trans (min_le_right _ _) (le_max_right _ _)
  · rw [hmaxc]
    exact min_le_left _ _

/-- Witness for `adjustedCaps_tighten` at a concrete input. -/
theorem adjustedCaps_tighten_witness :
    (("day_trade" : String) ≠ "swing_trade") ∧
    adjustedRiskPct "day_trade" (1/100) ≤ 1/100 ∧
    adjustedMaxContracts "day_trade" 7 ≤ 7 := by
  have h : ("day_trade" : String) ≠ "swing_trade" := by decide
  have hthm := adjustedCaps_tighten "day_trade" (1/100) 7 h
  exact ⟨h, hthm.1, hthm.2.1⟩

/-- C3: for every integer quantity `≥ 0` and finite `entry`, `takeProfit`,
`stop`, the `sellQty` values of `buildScalingPlan` sum exactly to the
quantity; the iteration list is empty when the quantity is `0`; for
`quantity ≥ 2` the first iteration sells `⌈quantity/2⌉` at the (rounded)
take profit; a lone remaining contract exits at the `1.3×` extension of
the target over entry; and with two or more remaining the plan ends with
`⌊remaining/2⌋` at the `1.3×` extension and the rest at the `1.6×`
extension. -/
theorem buildScalingPlan_invariant (qty : ℤ) (entry takeProfit stop : ℚ)
    (hq : 0 ≤ qty) :
    (((buildScalingPlan qty entry takeProfit stop).iterations.map PlanIteration.sellQty).sum
        = qty) ∧
    (qty = 0 → (buildScalingPlan qty entry takeProfit stop).iterations = []) ∧
    (2 ≤ qty → ∃ rest, (buildScalingPlan qty entry takeProfit stop).iterations =
      { sellQty := ⌈(qty : ℚ) * (1/2)⌉, target := some (round2 takeProfit),
        note := "Scale out half and move stop to breakeven once target prints." } :: rest) ∧
    (2 ≤ qty → qty - ⌈(qty : ℚ) * (1/2)⌉ = 1 →
      (buildScalingPlan qty entry takeProfit stop).iterations =
        [{ sellQty := ⌈(qty : ℚ) * (1/2)⌉, target := some (round2 takeProfit),
           note := "Scale out half and move stop to breakeven once target prints." },
         { sellQty := 1,
           target := some (round2 (entry + (round2 takeProfit - entry) * (13/10))),
           note := "Let final runner stretch; trail stop below last higher low." }]) ∧
    (2 ≤ qty - ⌈(qty : ℚ) * (1/2)⌉ →
      (buildScalingPlan qty entry takeProfit stop).iterations =
        [{ sellQty := ⌈(qty : ℚ) * (1/2)⌉, target := some (round2 takeProfit),
           note := "Scale out half and move stop to breakeven once target prints." },
         { sellQty := ⌊((qty - ⌈(qty : ℚ) * (1/2)⌉ : ℤ) : ℚ) / 2⌋,
           target := some (round2 (entry + (round2 takeProfit - entry) * (13/10))),
           note := "Take additional profits if extension continues; trail stop under VWAP." },
         { sellQty := (qty - ⌈(qty : ℚ) * (1/2)⌉) - ⌊((qty - ⌈(qty : ℚ) * (1/2)⌉ : ℤ) : ℚ) / 2⌋,
           target := some (round2 (entry + (round2 takeProfit - entry) * (8/5))),
           note := "Leave final runner for outsized move; ratchet stop up aggressively." }]) := by
  -- bounds for the ceiling of half the quantity
  have hceil : ∀ q : ℤ, q ≤ 2 * ⌈(q : ℚ) * (1/2)⌉ ∧ 2 * ⌈(q : ℚ) * (1/2)⌉ ≤ q + 1 := by
    intro q
    constructor
    · have h1 : (q : ℚ) * (1/2) ≤ (⌈(q : ℚ) * (1/2)⌉ : ℚ) := Int.le_ceil _
      have : (q : ℚ) ≤ 2 * (⌈(q : ℚ) * (1/2)⌉ : ℚ) := by linarith
      exact_mod_cast this
    · have h1 : (⌈(q : ℚ) * (1/2)⌉ : ℚ) < (q : ℚ) * (1/2) + 1 := Int.ceil_lt_add_one _
      have : 2 * (⌈(q : ℚ) * (1/2)⌉ : ℚ) < (q : ℚ) + 2 := by linarith
      have h2 : 2 * ⌈(q : ℚ) * (1/2)⌉ < q + 2 := by exact_mod_cast this
      omega
  have hfloor : ∀ r : ℤ, 2 * ⌊(r : ℚ) / 2⌋ ≤ r ∧ r ≤ 2 * ⌊(r : ℚ) / 2⌋ + 1 := by
    intro r
    constructor
    · have h1 : (⌊(r : ℚ) / 2⌋ : ℚ) ≤ (r : ℚ) / 2 := Int.floor_le _
      have : 2 * (⌊(r : ℚ) / 2⌋ : ℚ) ≤ (r : ℚ) := by linarith
      exact_mod_cast this
    · have h1 : (r : ℚ) / 2 < (⌊(r : ℚ) / 2⌋ : ℚ) + 1 := Int.lt_floor_add_one _
      have : (r : ℚ) < 2 * (⌊(r : ℚ) / 2⌋ : ℚ) + 2 := by linarith
      have h2 : r < 2 * ⌊(r : ℚ) / 2⌋ + 2 := by exact_mod_cast this
      omega
  rcases lt_trichotomy qty 1 with h0 | h1 | h2
  · -- qty = 0
    have hq0 : qty = 0 := by omega
    subst hq0
    have hIter : (buildScalingPlan 0 entry takeProfit stop).iterations = [] := by
      simp [buildScalingPlan]
    refine ⟨by simp [hIter], fun _ => hIter, ?_, ?_, ?_⟩
    · intro h; omega
    · intro h; omega
    · intro h
      have := (hceil 0).1
      omega
  · -- qty = 1
    subst h1
    have hIter : (buildScalingPlan 1 entry takeProfit stop).iterations =
        [{ sellQty := 1, target := some (round2 takeProfit),
           note := "Exit full position at target or earlier if momentum fades." }] := by
      simp [buildScalingPlan]
    refine ⟨by simp [hIter], ?_, ?_, ?_, ?_⟩
    · intro h; omega
    · intro h; omega
    · intro h; omega
    · intro h
      have := (hceil 1).1
      have := (hceil 1).2
      omega
  · -- qty ≥ 2
    obtain ⟨hcl, hcu⟩ := hceil qty
    have hc1 : 1 ≤ ⌈(qty : ℚ) * (1/2)⌉ := by omega
    have hmax1 : max 1 ⌈(qty : ℚ) * (1/2)⌉ = ⌈(qty : ℚ) * (1/2)⌉ := max_eq_right hc1
    have hrem1 : 1 ≤ qty - ⌈(qty : ℚ) * (1/2)⌉ := by omega
    by_cases hr1 : qty - ⌈(qty : ℚ) * (1/2)⌉ = 1
    · -- lone remaining contract
      have hIter : (buildScalingPlan qty entry takeProfit stop).iterations =
          [{ sellQty := ⌈(qty : ℚ) * (1/2)⌉, target := some (round2 takeProfit),
             note := "Scale out half and move stop to breakeven once target prints." },
           { sellQty := 1,
             target := some (round2 (entry + (round2 takeProfit - entry) * (13/10))),
             note := "Let final runner stretch; trail stop below last higher low." }] := by
        simp only [buildScalingPlan, hmax1]
        rw [if_neg (by omega), if_neg (by omega), if_neg (by omega), if_pos hr1]
      refine ⟨?_, by intro h; omega, ?_, fun _ _ => hIter, ?_⟩
      · rw [hIter]
        simp only [List.map_cons, List.map_nil, List.sum_cons, List.sum_nil]
        omega
      · intro h
        exact ⟨_, hIter⟩
      · intro h; omega
    · -- two or more remaining
      have hrem2 : 2 ≤ qty - ⌈(qty : ℚ) * (1/2)⌉ := by omega
      obtain ⟨hfl, hfu⟩ := hfloor (qty - ⌈(qty : ℚ) * (1/2)⌉)
      have hf1 : 1 ≤ ⌊((qty - ⌈(qty : ℚ) * (1/2)⌉ : ℤ) : ℚ) / 2⌋ := by omega
      have hmaxf : max 1 ⌊((qty - ⌈(qty : ℚ) * (1/2)⌉ : ℤ) : ℚ) / 2⌋ =
          ⌊((qty - ⌈(qty : ℚ) * (1/2)⌉ : ℤ) : ℚ) / 2⌋ := max_eq_right hf1
      have hrem2pos : 0 < (qty - ⌈(qty : ℚ) * (1/2)⌉) -
          ⌊((qty - ⌈(qty : ℚ) * (1/2)⌉ : ℤ) : ℚ) / 2⌋ := by omega
      have hIter : (buildScalingPlan qty entry takeProfit stop).iterations =
          [{ sellQty := ⌈(qty : ℚ) * (1/2)⌉, target := some (round2 takeProfit),
             note := "Scale out half and move stop to breakeven once target prints." },
           { sellQty := ⌊((qty - ⌈(qty : ℚ) * (1/2)⌉ : ℤ) : ℚ) / 2⌋,
             target := some (round2 (entry + (round2 takeProfit - entry) * (13/10))),
             note := "Take additional profits if extension continues; trail stop under VWAP." },
           { sellQty := (qty - ⌈(qty : ℚ) * (1/2)⌉) -
               ⌊((qty - ⌈(qty : ℚ) * (1/2)⌉ : ℤ) : ℚ) / 2⌋,
             target := some (round2 (entry + (round2 takeProfit - entry) * (8/5))),
             note := "Leave final runner for outsized move; ratchet stop up aggressively." }] := by
        simp only [buildScalingPlan, hmax1, hmaxf]
        rw [if_neg (by omega), if_neg (by omega), if_neg (by omega), if_neg hr1,
          if_pos hrem2pos]
      refine ⟨?_, by intro h; omega, ?_, ?_, fun _ => hIter⟩
      · rw [hIter]
        simp only [List.map_cons, List.map_nil, List.sum_cons, List.sum_nil]
        omega
      · intro h
        exact ⟨_, hIter⟩
      · intro h hcontra
        exact absurd hcontra hr1

/-- Witness for `buildScalingPlan_invariant` at quantity `5`. -/
theorem buildScalingPlan_invariant_witness :
    (0 : ℤ) ≤ 5 ∧
    (((buildScalingPlan 5 2 4 1).iterations.map PlanIteration.sellQty).sum = 5) := by
  exact ⟨by norm_num, (buildScalingPlan_invariant 5 2 4 1 (by norm_num)).1⟩

/-- C4: evaluation of `next0DTEExpiry` at the failing input.  Epoch day 1
(1970-01-02) is a Friday; called at or after the hour-20 market-close
cutoff the resolver returns epoch day 2, a Saturday, contradicting the
claim that the rolled expiry is never a weekend day. -/
theorem next0DTE_friday_rolls_to_saturday :
    dayOfWeekOf 1 = 5 ∧ next0DTEExpiry 1 20 = 2 ∧ isWeekend 2 = true ∧
    next0DTEExpiry 1 19 = 1 := by
  refine ⟨by decide, by decide, by decide, by decide⟩

/-- C6 counterexample: a quote with `bid = 0`, `ask = 2`, `last = 5` has
mid `(0+2)/2 = 1` in the source (the code only requires `ask ≥ bid` and
`ask > 0`), while the claim's condition `ask ≥ bid > 0` fails and would
send this quote to `last = 5`. -/
theorem midPrice_zero_bid_counterexample :
    midPrice ⟨"CALL", some 455, some 0, some 2, some 5, none, none, none⟩ = some 1 ∧
    (⟨"CALL", some 455, some 0, some 2, some 5, none, none, none⟩ : OptQuote).last = some 5 ∧
    ¬ ((0:ℚ) < 0) := by
  refine ⟨by norm_num [midPrice], rfl, by norm_num⟩

theorem selectGo_all_unusable (type : String) (td ms moi : ℚ) :
    ∀ (l : List OptQuote) (best : Option (OptQuote × SelMetrics)),
      (∀ p ∈ l, p.type = type → midPrice p = none) →
      selectGo type td ms moi l best = best := by
  intro l
  induction l with
  | nil => intro best h; rfl
  | cons q rest ih =>
    intro best h
    have hrest : ∀ p ∈ rest, p.type = type → midPrice p = none := by
      intro p hp
      exact h p (List.mem_cons_of_mem q hp)
    by_cases hty : q.type = type
    · have hmid : midPrice q = none := h q (List.mem_cons_self q rest) hty
      rw [selectGo, if_neg (by simpa using hty), hmid]
      exact ih best hrest
    · rw [selectGo, if_pos (by simpa using hty)]
      exact ih best hrest

/-- C6 (amended): the per-quote mid price follows the spec's fallback
chain with the first condition amended to `ask ≥ bid` and `ask > 0`
(the source does not require `bid > 0`); and when no quote of the
matching type has a usable mid, `selectOptimalOption` returns null. -/
theorem midPrice_characterisation_and_null_selection (q : OptQuote)
    (options : List OptQuote) (side : String) (td ms moi : ℚ)
    (h : ∀ p ∈ options, p.type = sideType side → midPrice p = none) :
    midPrice q = midPriceSpec q ∧
    selectOptimalOption options side td ms moi = none := by
  constructor
  · obtain ⟨ty, st, bid, ask, last, d, oi, vol⟩ := q
    cases bid <;> cases ask <;> cases last <;> rfl
  · exact selectGo_all_unusable (sideType side) td ms moi options none h

/-- Witness for `midPrice_characterisation_and_null_selection`: a
one-element call list whose only quote has no bid/ask/last. -/
theorem midPrice_characterisation_witness :
    (∀ p ∈ [(⟨"CALL", some 450, none, none, none, none, none, none⟩ : OptQuote)],
      p.type = sideType "call" → midPrice p = none) ∧
    midPrice ⟨"CALL", some 455, some 0, some 2, some 5, none, none, none⟩ =
      midPriceSpec ⟨"CALL", some 455, some 0, some 2, some 5, none, none, none⟩ ∧
    selectOptimalOption [⟨"CALL", some 450, none, none, none, none, none, none⟩]
      "call" (35/100) (35/100) 50 = none := by
  have h : ∀ p ∈ [(⟨"CALL", some 450, none, none, none, none, none, none⟩ : OptQuote)],
      p.type = sideType "call" → midPrice p = none := by
    intro p hp
    simp only [List.mem_singleton] at hp
    subst hp
    intro hty
    rfl
  have hthm := midPrice_characterisation_and_null_selection
    ⟨"CALL", some 455, some 0, some 2, some 5, none, none, none⟩
    [⟨"CALL", some 450, none, none, none, none, none, none⟩] "call" (35/100) (35/100) 50 h
  exact ⟨h, hthm.1, hthm.2⟩

/-- C9 counterexample: for a candidate with missing bid/ask (its
`spreadPct` is treated as exactly `maxSpreadPct`), raising `maxSpreadPct`
from `0` to `0.02` drops its `spreadScore` from `1` to `0`. -/
theorem spreadScore_not_monotone_counterexample :
    spreadScoreOf ⟨"CALL", some 455, none, none, some 5, none, none, none⟩ 0 5 = 1 ∧
    spreadScoreOf ⟨"CALL", some 455, none, none, some 5, none, none, none⟩ (1/50) 5 = 0 ∧
    (0:ℚ) < 1/50 := by
  refine ⟨?_, ?_, by norm_num⟩ <;>
    norm_num [spreadScoreOf, spreadPctOf, max_def]

/-- C9 (amended): for a fixed candidate with both bid and ask present (and
a positive mid, as guaranteed at the scoring site), increasing
`maxSpreadPct` never decreases its `spreadScore`; and for every candidate
this monotonicity also holds on `maxSpreadPct ≥ 0.01`, where the
missing-spread score is constantly `0`.  Monotonicity fails only for
missing-spread candidates below the `0.01` floor, as the counterexample
shows. -/
theorem spreadScore_missing_eval (q : OptQuote) (m mid : ℚ)
    (h : q.bid = none ∨ q.ask = none) (hfloor : 1/100 ≤ m) :
    spreadScoreOf q m mid = 0 := by
  have hm0 : m ≠ 0 := by
    intro h0
    rw [h0] at hfloor
    norm_num at hfloor
  have hmax : max m (1/100) = m := max_eq_left hfloor
  have hsp : spreadPctOf q m mid = m := by
    unfold spreadPctOf
    rcases h with h | h
    · rw [h]
    · rw [h]
      cases q.bid <;> rfl
  unfold spreadScoreOf
  rw [hsp, hmax, div_self hm0]
  norm_num

/-- C9 (amended): for a fixed candidate with both bid and ask present (and
a positive mid, as guaranteed at the scoring site), increasing
`maxSpreadPct` never decreases its `spreadScore`; and for every candidate
the monotonicity also holds on `maxSpreadPct ≥ 0.01`, where the
missing-spread score is constantly `0`.  It fails only for missing-spread
candidates below the `0.01` denominator floor, as the counterexample
shows. -/
theorem spreadScore_monotone (q : OptQuote) (mid m m' : ℚ)
    (hmid : 0 < mid) (hm : m ≤ m') :
    (q.bid.isSome → q.ask.isSome → spreadScoreOf q m mid ≤ spreadScoreOf q m' mid) ∧
    (1/100 ≤ m → spreadScoreOf q m mid ≤ spreadScoreOf q m' mid) := by
  have hden : (0:ℚ) < max m (1/100) := lt_of_lt_of_le (by norm_num) (le_max_right _ _)
  have hdle : max m (1/100) ≤ max m' (1/100) := max_le_max hm le_rfl
  have hknown : q.bid.isSome → q.ask.isSome →
      spreadScoreOf q m mid ≤ spreadScoreOf q m' mid := by
    intro hb ha
    obtain ⟨b, hbv⟩ := Option.isSome_iff_exists.mp hb
    obtain ⟨a, hav⟩ := Option.isSome_iff_exists.mp ha
    have hsp : spreadPctOf q m mid = max 0 (a - b) / mid := by
      unfold spreadPctOf
      rw [hbv, hav]
    have hsp' : spreadPctOf q m' mid = max 0 (a - b) / mid := by
      unfold spreadPctOf
      rw [hbv, hav]
    unfold spreadScoreOf
    rw [hsp, hsp']
    have hnum : (0:ℚ) ≤ max 0 (a - b) / mid :=
      div_nonneg (le_max_left _ _) (le_of_lt hmid)
    have hdiv : max 0 (a - b) / mid / max m' (1/100) ≤ max 0 (a - b) / mid / max m (1/100) := by
      gcongr
    exact max_le_max le_rfl (by linarith)
  refine ⟨hknown, ?_⟩
  intro hfloor
  by_cases hb : q.bid.isSome
  · by_cases ha : q.ask.isSome
    · exact hknown hb ha
    · have hnone : q.ask = none := Option.not_isSome_iff_eq_none.mp ha
      rw [spreadScore_missing_eval q m mid (Or.inr hnone) hfloor,
        spreadScore_missing_eval q m' mid (Or.inr hnone) (le_trans hfloor hm)]
  · have hnone : q.bid = none := Option.not_isSome_iff_eq_none.mp hb
    rw [spreadScore_missing_eval q m mid (Or.inl hnone) hfloor,
      spreadScore_missing_eval q m' mid (Or.inl hnone) (le_trans hfloor hm)]

/-- Witness for `spreadScore_monotone` at a concrete quote with both
sides present. -/
theorem spreadScore_monotone_witness :
    (0:ℚ) < 11/10 ∧ (35/100:ℚ) ≤ 45/100 ∧
    ((⟨"CALL", some 455, some 1, some (6/5), none, none, none, none⟩ : OptQuote).bid.isSome →
      (⟨"CALL", some 455, some 1, some (6/5), none, none, none, none⟩ : OptQuote).ask.isSome →
      spreadScoreOf ⟨"CALL", some 455, some 1, some (6/5), none, none, none, none⟩
          (35/100) (11/10) ≤
        spreadScoreOf ⟨"CALL", some 455, some 1, some (6/5), none, none, none, none⟩
          (45/100) (11/10)) := by
  refine ⟨by norm_num, by norm_num, ?_⟩
  exact (spreadScore_monotone ⟨"CALL", some 455, some 1, some (6/5), none, none, none, none⟩
    (11/10) (35/100) (45/100) (by norm_num) (by norm_num)).1

/-- C10: `selectOptimalOption` ignores the sign of the caller-supplied
`targetDelta`: flipping its sign changes nothing (the effective signed
target is rederived from the side, negative for puts and positive for
calls, via `deltaTargetOf`). -/
theorem selectOptimal_ignores_delta_sign (options : List OptQuote) (side : String)
    (td ms moi : ℚ) :
    selectOptimalOption options side td ms moi =
      selectOptimalOption options side (-td) ms moi := by
  have hds : ∀ (q : OptQuote) (ty : String), deltaScoreOf q ty (-td) = deltaScoreOf q ty td := by
    intro q ty
    rcases hq : q.delta with _ | d <;>
      simp [deltaScoreOf, deltaTargetOf, hq, abs_neg]
  have hmet : ∀ (q : OptQuote) (ty : String) (mid : ℚ),
      metricsOf q ty (-td) ms moi mid = metricsOf q ty td ms moi mid := by
    intro q ty mid
    simp only [metricsOf, hds]
  have hgo : ∀ (l : List OptQuote) (best : Option (OptQuote × SelMetrics)),
      selectGo (sideType side) (-td) ms moi l best =
        selectGo (sideType side) td ms moi l best := by
    intro l
    induction l with
    | nil => intro best; rfl
    | cons q rest ih =>
      intro best
      simp only [selectGo, hmet, ih]
  exact (hgo options none).symm

theorem asP_hasDerivAt (t : ℝ) : HasDerivAt asP (asPd t) t := by
  have h1 : HasDerivAt (fun x : ℝ => (254829592/1000000000) * x) (254829592/1000000000) t := by
    simpa using (hasDerivAt_id t).const_mul (254829592/1000000000 : ℝ)
  have h2 : HasDerivAt (fun x : ℝ => (-284496736/1000000000) * x^2)
      ((-284496736/1000000000) * (2 * t)) t := by
    simpa using (hasDerivAt_pow 2 t).const_mul (-284496736/1000000000 : ℝ)
  have h3 : HasDerivAt (fun x : ℝ => (1421413741/1000000000) * x^3)
      ((1421413741/1000000000) * (3 * t^2)) t := by
    simpa using (hasDerivAt_pow 3 t).const_mul (1421413741/1000000000 : ℝ)
  have h4 : HasDerivAt (fun x : ℝ => (-1453152027/1000000000) * x^4)
      ((-1453152027/1000000000) * (4 * t^3)) t := by
    simpa using (hasDerivAt_pow 4 t).const_mul (-1453152027/1000000000 : ℝ)
  have h5 : HasDerivAt (fun x : ℝ => (1061405429/1000000000) * x^5)
      ((1061405429/1000000000) * (5 * t^4)) t := by
    simpa using (hasDerivAt_pow 5 t).const_mul (1061405429/1000000000 : ℝ)
  have hsum := h1.add (h2.add (h3.add (h4.add h5)))
  have hfun : (fun x : ℝ => (254829592/1000000000) * x + ((-284496736/1000000000) * x^2 +
      ((1421413741/1000000000) * x^3 + ((-1453152027/1000000000) * x^4 +
        (1061405429/1000000000) * x^5)))) = asP := by
    funext x
    unfold asP
    ring
  rw [hfun] at hsum
  convert hsum using 1
  unfold asPd
  ring

theorem asP_monotoneOn : MonotoneOn asP (Set.Icc (0:ℝ) 1) := by
  apply monotoneOn_of_deriv_nonneg (convex_Icc 0 1)
  · exact fun x _ => (asP_hasDerivAt x).continuousAt.continuousWithinAt
  · intro x _
    exact (asP_hasDerivAt x).differentiableAt.differentiableWithinAt
  · intro x hx
    rw [(asP_hasDerivAt x).deriv]
    rw [interior_Icc] at hx
    obtain ⟨h0, h1⟩ := hx
    unfold asPd
    nlinarith [sq_nonneg (x - 52304302/100000000), sq_nonneg (x - 2459014/100000000),
      mul_nonneg (sq_nonneg (x - 52304302/100000000)) (sq_nonneg (x - 2459014/100000000)),
      mul_nonneg h0.le (sub_nonneg.2 h1.le), sq_nonneg x,
      mul_nonneg (mul_nonneg h0.le h0.le) (sub_nonneg.2 h1.le),
      mul_nonneg h0.le (mul_nonneg h0.le h0.le)]

theorem asP_mono {u v : ℝ} (hu : 0 ≤ u) (huv : u ≤ v) (hv : v ≤ 1) : asP u ≤ asP v :=
  asP_monotoneOn ⟨hu, le_trans huv hv⟩ ⟨le_trans hu huv, hv⟩ huv

theorem asP_nonneg {t : ℝ} (h0 : 0 ≤ t) (h1 : t ≤ 1) : 0 ≤ asP t := by
  have := asP_mono le_rfl h0 h1
  simpa [asP] using this

theorem asP_le_one {t : ℝ} (h0 : 0 ≤ t) (h1 : t ≤ 1) : asP t ≤ 1 := by
  have := asP_mono h0 h1 le_rfl
  have h : asP 1 ≤ 1 := by norm_num [asP]
  linarith

theorem sqrt2_pos : (0:ℝ) < Real.sqrt 2 := Real.sqrt_pos.mpr (by norm_num)

theorem erfArgT_pos {a : ℝ} (ha : 0 ≤ a) : 0 < erfArgT a := by
  unfold erfArgT
  positivity

theorem erfArgT_le_one {a : ℝ} (ha : 0 ≤ a) : erfArgT a ≤ 1 := by
  unfold erfArgT
  rw [div_le_one (by positivity)]
  nlinarith

theorem erfArgT_anti {a b : ℝ} (ha : 0 ≤ a) (hab : a ≤ b) : erfArgT b ≤ erfArgT a := by
  unfold erfArgT
  apply div_le_div_of_nonneg_left (by norm_num) (by positivity)
  nlinarith

theorem div_sqrt2_mul_self (x : ℝ) : x / Real.sqrt 2 * (x / Real.sqrt 2) = x^2/2 := by
  rw [div_mul_div_comm, Real.mul_self_sqrt (by norm_num : (0:ℝ) ≤ 2), ← pow_two]

theorem normCdf_of_neg {x : ℝ} (hx : x < 0) :
    normCdf x = 1/2 * asP (erfArgT (-(x / Real.sqrt 2))) * Real.exp (-(x^2/2)) := by
  have hxd : x / Real.sqrt 2 < 0 := div_neg_of_neg_of_pos hx sqrt2_pos
  unfold normCdf erf
  rw [if_pos hxd, abs_of_neg hxd, neg_mul_neg, div_sqrt2_mul_self]
  ring

theorem normCdf_of_pos {x : ℝ} (hx : 0 < x) :
    normCdf x = 1 - 1/2 * asP (erfArgT (x / Real.sqrt 2)) * Real.exp (-(x^2/2)) := by
  have hxd : 0 < x / Real.sqrt 2 := div_pos hx sqrt2_pos
  unfold normCdf erf
  rw [if_neg (by linarith), if_pos hxd, abs_of_pos hxd, div_sqrt2_mul_self]
  ring

theorem normCdf_zero : normCdf 0 = 1/2 := by
  unfold normCdf erf
  norm_num

theorem gAux_of_neg {x : ℝ} (hx : x < 0) :
    gAux x = 1/2 * asP (erfArgT (-(x / Real.sqrt 2))) := by
  unfold gAux
  rw [normCdf_of_neg hx, mul_assoc, ← Real.exp_add]
  norm_num

theorem gAux_of_pos {x : ℝ} (hx : 0 < x) :
    gAux x = Real.exp (x^2/2) - 1/2 * asP (erfArgT (x / Real.sqrt 2)) := by
  unfold gAux
  rw [normCdf_of_pos hx, sub_mul, mul_assoc, ← Real.exp_add]
  norm_num

theorem gAux_zero : gAux 0 = 1/2 := by
  unfold gAux
  rw [normCdf_zero]
  norm_num

theorem gAux_mono : Monotone gAux := by
  have key_pos : ∀ z : ℝ, 0 < z → 1/2 ≤ gAux z := by
    intro z hz
    rw [gAux_of_pos hz]
    have h0 : 0 ≤ z / Real.sqrt 2 := div_nonneg hz.le sqrt2_pos.le
    have hP : asP (erfArgT (z / Real.sqrt 2)) ≤ 1 :=
      asP_le_one (erfArgT_pos h0).le (erfArgT_le_one h0)
    have hexp : (1:ℝ) ≤ Real.exp (z^2/2) := by
      rw [show (1:ℝ) = Real.exp 0 from (Real.exp_zero).symm]
      exact Real.exp_le_exp.mpr (by positivity)
    linarith
  have key_neg : ∀ z : ℝ, z < 0 → gAux z ≤ 1/2 := by
    intro z hz
    rw [gAux_of_neg hz]
    have ha : 0 ≤ -(z / Real.sqrt 2) := by
      have := div_neg_of_neg_of_pos hz sqrt2_pos
      linarith
    have hP : asP (erfArgT (-(z / Real.sqrt 2))) ≤ 1 :=
      asP_le_one (erfArgT_pos ha).le (erfArgT_le_one ha)
    linarith
  intro x y hxy
  rcases lt_trichotomy x 0 with hx | hx | hx
  · rcases lt_trichotomy y 0 with hy | hy | hy
    · rw [gAux_of_neg hx, gAux_of_neg hy]
      have ha : 0 ≤ -(y / Real.sqrt 2) := by
        have := div_neg_of_neg_of_pos hy sqrt2_pos
        linarith
      have hdiv : x / Real.sqrt 2 ≤ y / Real.sqrt 2 :=
        (div_le_div_iff_of_pos_right sqrt2_pos).mpr hxy
      have hab : -(y / Real.sqrt 2) ≤ -(x / Real.sqrt 2) := by linarith
      have ht : erfArgT (-(x / Real.sqrt 2)) ≤ erfArgT (-(y / Real.sqrt 2)) :=
        erfArgT_anti ha hab
      have hmem : 0 ≤ erfArgT (-(x / Real.sqrt 2)) :=
        (erfArgT_pos (le_trans ha hab)).le
      have := asP_mono hmem ht (erfArgT_le_one ha)
      linarith
    · subst hy
      rw [gAux_zero]
      exact key_neg x hx
    · exact le_trans (key_neg x hx) (key_pos y hy)
  · subst hx
    rcases eq_or_lt_of_le hxy with h | h
    · rw [← h]
    · rw [gAux_zero]
      exact key_pos y h
  · have hy : 0 < y := lt_of_lt_of_le hx hxy
    rw [gAux_of_pos hx, gAux_of_pos hy]
    have hexp : Real.exp (x^2/2) ≤ Real.exp (y^2/2) := by
      apply Real.exp_le_exp.mpr
      nlinarith
    have hxa : 0 ≤ x / Real.sqrt 2 := div_nonneg hx.le sqrt2_pos.le
    have hab : x / Real.sqrt 2 ≤ y / Real.sqrt 2 :=
      (div_le_div_iff_of_pos_right sqrt2_pos).mpr hxy
    have ht : erfArgT (y / Real.sqrt 2) ≤ erfArgT (x / Real.sqrt 2) :=
      erfArgT_anti hxa hab
    have hmem : 0 ≤ erfArgT (y / Real.sqrt 2) := (erfArgT_pos (le_trans hxa hab)).le
    have := asP_mono hmem ht (erfArgT_le_one hxa)
    linarith

theorem normCdf_nonneg (x : ℝ) : 0 ≤ normCdf x := by
  rcases lt_trichotomy x 0 with hx | hx | hx
  · rw [normCdf_of_neg hx]
    have ha : 0 ≤ -(x / Real.sqrt 2) := by
      have := div_neg_of_neg_of_pos hx sqrt2_pos
      linarith
    have hP : 0 ≤ asP (erfArgT (-(x / Real.sqrt 2))) :=
      asP_nonneg (erfArgT_pos ha).le (erfArgT_le_one ha)
    exact mul_nonneg (mul_nonneg (by norm_num) hP) (Real.exp_pos _).le
  · rw [hx, normCdf_zero]
    norm_num
  · rw [normCdf_of_pos hx]
    have h0 : 0 ≤ x / Real.sqrt 2 := div_nonneg hx.le sqrt2_pos.le
    have hP : asP (erfArgT (x / Real.sqrt 2)) ≤ 1 :=
      asP_le_one (erfArgT_pos h0).le (erfArgT_le_one h0)
    have hP0 : 0 ≤ asP (erfArgT (x / Real.sqrt 2)) :=
      asP_nonneg (erfArgT_pos h0).le (erfArgT_le_one h0)
    have hexp : Real.exp (-(x^2/2)) ≤ 1 := by
      rw [show (1:ℝ) = Real.exp 0 from (Real.exp_zero).symm]
      apply Real.exp_le_exp.mpr
      have : (0:ℝ) ≤ x^2/2 := by positivity
      linarith
    have hexp0 : 0 < Real.exp (-(x^2/2)) := Real.exp_pos _
    nlinarith

/-- C5: for every spot `S > 0`, strike `K > 0`, any time-to-expiry,
rate and volatility, the Black-Scholes pricer returns a value `≥ 0`;
and when `T ≤ 0` or `sigma ≤ 0` it returns exactly the intrinsic value
`max 0 (S-K)` for calls and `max 0 (K-S)` for puts.  In the live branch
the sign reduces, through the exact identity
`K·e^(-rT)·e^((d1²-d2²)/2) = S`, to the monotonicity of
`normCdf x · e^(x²/2)`, which holds because the Abramowitz-Stegun
polynomial is monotone on `[0,1]` with `asP 1 < 1`. -/
theorem bsOptionPrice_nonneg_and_intrinsic (S K T r sigma : ℝ) (side : OptionSide)
    (hS : 0 < S) (hK : 0 < K) :
    0 ≤ bsOptionPrice S K T r sigma side ∧
    ((T ≤ 0 ∨ sigma ≤ 0) → bsOptionPrice S K T r sigma side =
      max 0 (match side with | OptionSide.call => S - K | OptionSide.put => K - S)) := by
  by_cases hdeg : T ≤ 0 ∨ sigma ≤ 0
  · refine ⟨?_, fun _ => ?_⟩
    · unfold bsOptionPrice
      rw [if_pos hdeg]
      exact le_max_left _ _
    · unfold bsOptionPrice
      rw [if_pos hdeg]
  · have hTs := hdeg
    push_neg at hTs
    obtain ⟨hT, hsig⟩ := hTs
    refine ⟨?_, fun h => absurd h hdeg⟩
    have hprice : bsOptionPrice S K T r sigma side =
        match side with
        | OptionSide.call =>
            S * normCdf ((Real.log (S / K) + (r + 1/2 * sigma * sigma) * T) /
                (sigma * Real.sqrt T)) -
              K * Real.exp (-(r * T)) *
                normCdf ((Real.log (S / K) + (r + 1/2 * sigma * sigma) * T) /
                    (sigma * Real.sqrt T) - sigma * Real.sqrt T)
        | OptionSide.put =>
            K * Real.exp (-(r * T)) *
                normCdf (-((Real.log (S / K) + (r + 1/2 * sigma * sigma) * T) /
                    (sigma * Real.sqrt T) - sigma * Real.sqrt T)) -
              S * normCdf (-((Real.log (S / K) + (r + 1/2 * sigma * sigma) * T) /
                  (sigma * Real.sqrt T))) := by
      unfold bsOptionPrice
      rw [if_neg hdeg]
    rw [hprice]
    set L := Real.log (S / K) with hLdef
    set c := sigma * Real.sqrt T with hcdef
    set d1 := (L + (r + 1/2 * sigma * sigma) * T) / c with hd1def
    set d2 := d1 - c with hd2def
    have hc : 0 < c := by
      rw [hcdef]
      exact mul_pos hsig (Real.sqrt_pos.mpr hT)
    have hcc : c * c = sigma * sigma * T := by
      rw [hcdef, show sigma * Real.sqrt T * (sigma * Real.sqrt T)
          = sigma * sigma * (Real.sqrt T * Real.sqrt T) from by ring,
        Real.mul_self_sqrt hT.le]
    have hd1c : d1 * c = L + (r + 1/2 * sigma * sigma) * T := by
      rw [hd1def]
      exact div_mul_cancel₀ _ (ne_of_gt hc)
    have hid : d1^2/2 - d2^2/2 = L + r * T := by
      rw [hd2def]
      rw [show d1^2/2 - (d1 - c)^2/2 = d1 * c - (c * c)/2 from by ring, hd1c, hcc]
      ring
    have hexpL : Real.exp L = S / K := Real.exp_log (div_pos hS hK)
    have hkey : K * Real.exp (-(r * T)) * Real.exp (d1^2/2 - d2^2/2) = S := by
      rw [hid, mul_assoc, ← Real.exp_add,
        show -(r * T) + (L + r * T) = L from by ring, hexpL]
      field_simp
    have hkey2 : S * Real.exp (d2^2/2 - d1^2/2) = K * Real.exp (-(r * T)) := by
      rw [show d2^2/2 - d1^2/2 = -(d1^2/2 - d2^2/2) from by ring, hid,
        show -(L + r * T) = -L + -(r * T) from by ring, Real.exp_add, ← mul_assoc]
      rw [show S * Real.exp (-L) = K from by
        rw [Real.exp_neg, hexpL]
        field_simp]
    have hd21 : d2 ≤ d1 := by
      rw [hd2def]
      linarith
    cases side with
    | call =>
        show (0:ℝ) ≤ S * normCdf d1 - K * Real.exp (-(r * T)) * normCdf d2
        have hgle := gAux_mono hd21
        unfold gAux at hgle
        have hW : (0:ℝ) < K * Real.exp (-(r * T)) * Real.exp (-(d2^2/2)) := by positivity
        have h2 := mul_le_mul_of_nonneg_left hgle hW.le
        have e1 : K * Real.exp (-(r * T)) * Real.exp (-(d2^2/2)) *
            (normCdf d2 * Real.exp (d2^2/2)) = K * Real.exp (-(r * T)) * normCdf d2 := by
          rw [show K * Real.exp (-(r * T)) * Real.exp (-(d2^2/2)) *
              (normCdf d2 * Real.exp (d2^2/2)) = K * Real.exp (-(r * T)) * normCdf d2 *
              (Real.exp (-(d2^2/2)) * Real.exp (d2^2/2)) from by ring, ← Real.exp_add]
          norm_num
        have e2 : K * Real.exp (-(r * T)) * Real.exp (-(d2^2/2)) *
            (normCdf d1 * Real.exp (d1^2/2)) = S * normCdf d1 := by
          rw [show K * Real.exp (-(r * T)) * Real.exp (-(d2^2/2)) *
              (normCdf d1 * Real.exp (d1^2/2)) = K * Real.exp (-(r * T)) *
              (Real.exp (-(d2^2/2)) * Real.exp (d1^2/2)) * normCdf d1 from by ring,
            ← Real.exp_add, show -(d2^2/2) + d1^2/2 = d1^2/2 - d2^2/2 from by ring, hkey]
        rw [e1, e2] at h2
        linarith
    | put =>
        show (0:ℝ) ≤ K * Real.exp (-(r * T)) * normCdf (-d2) - S * normCdf (-d1)
        have hgle := gAux_mono (neg_le_neg hd21)
        unfold gAux at hgle
        rw [neg_sq, neg_sq] at hgle
        have hW : (0:ℝ) < S * Real.exp (-(d1^2/2)) := by positivity
        have h2 := mul_le_mul_of_nonneg_left hgle hW.le
        have e1 : S * Real.exp (-(d1^2/2)) * (normCdf (-d1) * Real.exp (d1^2/2)) =
            S * normCdf (-d1) := by
          rw [show S * Real.exp (-(d1^2/2)) * (normCdf (-d1) * Real.exp (d1^2/2)) =
              S * normCdf (-d1) * (Real.exp (-(d1^2/2)) * Real.exp (d1^2/2)) from by ring,
            ← Real.exp_add]
          norm_num
        have e2 : S * Real.exp (-(d1^2/2)) * (normCdf (-d2) * Real.exp (d2^2/2)) =
            K * Real.exp (-(r * T)) * normCdf (-d2) := by
          rw [show S * Real.exp (-(d1^2/2)) * (normCdf (-d2) * Real.exp (d2^2/2)) =
              S * (Real.exp (-(d1^2/2)) * Real.exp (d2^2/2)) * normCdf (-d2) from by ring,
            ← Real.exp_add, show -(d1^2/2) + d2^2/2 = d2^2/2 - d1^2/2 from by ring, hkey2]
        rw [e1, e2] at h2
        linarith

/-- Witness for `bsOptionPrice_nonneg_and_intrinsic` at a concrete
degenerate input (the spec's boundary scenario `S=450, K=455, T=0`). -/
theorem bsOptionPrice_nonneg_witness :
    (0:ℝ) < 450 ∧ (0:ℝ) < 455 ∧
    0 ≤ bsOptionPrice 450 455 0 (1/100) (2/10) OptionSide.call ∧
    bsOptionPrice 450 455 0 (1/100) (2/10) OptionSide.call = 0 := by
  have hthm := bsOptionPrice_nonneg_and_intrinsic 450 455 0 (1/100) (2/10) OptionSide.call
    (by norm_num) (by norm_num)
  refine ⟨by norm_num, by norm_num, hthm.1, ?_⟩
  rw [hthm.2 (Or.inl le_rfl)]
  norm_num

/-- C7: evaluation of `pickContract` at the failing input.  With an
override that does not parse (`some none`, an Invalid Date) the function
does not raise any error: it returns a contract whose expiry is the
malformed string `"NaN-NaN-NaN"`.  With a parseable override the override
date is used as given (`2024-10-04` is epoch day 20000). -/
theorem pickContract_invalid_override_counterexample :
    pickContract "SPY" OptionSide.call 450 (2/100) (some none) "weekly" 2 19000 12 =
      Except.ok ⟨"SPY", OptionSide.call, 459, "NaN-NaN-NaN", 1, 100⟩ ∧
    pickContract "SPY" OptionSide.call 450 (2/100) (some (some 20000)) "weekly" 2 19000 12 =
      Except.ok ⟨"SPY", OptionSide.call, 459, "2024-10-04", 1, 100⟩ := by
  have hconf : OPTION_CONFIG "SPY" = some ⟨100, 1⟩ := by decide
  have hstrike : strikeOf OptionSide.call 450 (2/100) 1 = 459 := by
    norm_num [strikeOf, ceilStrike]
  constructor
  · simp only [pickContract, hconf, Except.ok.injEq, Contract.mk.injEq]
    and_intros <;> first | rfl | exact hstrike | trivial
  · simp only [pickContract, hconf, Except.ok.injEq, Contract.mk.injEq]
    and_intros <;> first | rfl | exact hstrike | trivial

theorem suggestionT_at_close : suggestionT (some 20000) "weekly" 2 (20000 * 86400000 + 72000000) = 0 := by
  norm_num [suggestionT, resolvedExpiryDay]

/-- C8 counterexample: a long SPY call requested at the expiry day's
20:00 UTC close (so `T = 0`) with a 2% OTM strike has theoretical entry
`0`; the suggestion then has `stop = 0.01 > 0 = est_entry` and
`take_profit = 0 = est_entry`, refuting `stop < entry < target`. -/
theorem buildSuggestion_zero_entry_counterexample :
    (buildSuggestion "SPY" OptionSide.call 450 (2/10) (1/100) (2/100) (1/2) 2
        (some 20000) "weekly" 2 (20000 * 86400000 + 72000000)).map Suggestion.est_entry =
      Except.ok 0 ∧
    (buildSuggestion "SPY" OptionSide.call 450 (2/10) (1/100) (2/100) (1/2) 2
        (some 20000) "weekly" 2 (20000 * 86400000 + 72000000)).map Suggestion.stop =
      Except.ok (1/100) ∧
    (buildSuggestion "SPY" OptionSide.call 450 (2/10) (1/100) (2/100) (1/2) 2
        (some 20000) "weekly" 2 (20000 * 86400000 + 72000000)).map Suggestion.take_profit =
      Except.ok 0 ∧
    ¬ ((1/100 : ℝ) < 0) := by
  have hconf : OPTION_CONFIG "SPY" = some ⟨100, 1⟩ := by decide
  have hstrike : strikeOf OptionSide.call 450 (2/100) 1 = 459 := by
    norm_num [strikeOf, ceilStrike]
  have hentry : suggestionEntry OptionSide.call 450 (2/10) (1/100) (2/100) 1
      (some 20000) "weekly" 2 (20000 * 86400000 + 72000000) = 0 := by
    unfold suggestionEntry
    rw [suggestionT_at_close, hstrike]
    unfold bsOptionPrice
    rw [if_pos (Or.inl le_rfl)]
    norm_num
  have hstop : suggestionStopOf 0 (1/2) = 1/100 := by
    unfold suggestionStopOf
    norm_num
  have htp : suggestionTargetOf 0 2 = 0 := by
    unfold suggestionTargetOf
    norm_num
  have hr0 : round2R 0 = 0 := by
    unfold round2R
    norm_num
  have hr1 : round2R (1/100) = 1/100 := by
    unfold round2R
    rw [show (1:ℝ)/100 * 100 + 1/2 = 3/2 from by norm_num]
    rw [show ⌊(3/2 : ℝ)⌋ = 1 from by norm_num]
    norm_num
  simp only [buildSuggestion, pickContract, hconf, pickContractExpiry, Option.map_some]
  simp only [hstrike, hentry, hstop, htp, hr0, hr1, Except.map]
  norm_num

/-- C8 (amended): for every suggestion built for a long call or put with
`stopLossPct ∈ (0,1)` and `takeProfitMult > 0`, whenever the theoretical
entry premium exceeds `$0.01` the premiums satisfy
`stop < entry < target` before display rounding, and the returned fields
are exactly the 2-decimal roundings of those premiums. -/
theorem buildSuggestion_premium_ordering
    (symbol : String) (side : OptionSide) (price iv r otmPct slp tpm : ℚ)
    (override : Option ℤ) (ty : String) (minBD nowMs : ℤ)
    (conf : OptionConf) (hconf : OPTION_CONFIG symbol = some conf)
    (h1 : 0 < slp) (h2 : slp < 1) (h3 : 0 < tpm)
    (he : (1/100 : ℝ) <
      suggestionEntry side price iv r otmPct conf.strikeIncrement override ty minBD nowMs) :
    (buildSuggestion symbol side price iv r otmPct slp tpm override ty minBD nowMs).map
        Suggestion.est_entry =
      Except.ok (round2R
        (suggestionEntry side price iv r otmPct conf.strikeIncrement override ty minBD nowMs)) ∧
    (buildSuggestion symbol side price iv r otmPct slp tpm override ty minBD nowMs).map
        Suggestion.stop =
      Except.ok (round2R (suggestionStopOf
        (suggestionEntry side price iv r otmPct conf.strikeIncrement override ty minBD nowMs)
        slp)) ∧
    (buildSuggestion symbol side price iv r otmPct slp tpm override ty minBD nowMs).map
        Suggestion.take_profit =
      Except.ok (round2R (suggestionTargetOf
        (suggestionEntry side price iv r otmPct conf.strikeIncrement override ty minBD nowMs)
        tpm)) ∧
    suggestionStopOf
        (suggestionEntry side price iv r otmPct conf.strikeIncrement override ty minBD nowMs)
        slp <
      suggestionEntry side price iv r otmPct conf.strikeIncrement override ty minBD nowMs ∧
    suggestionEntry side price iv r otmPct conf.strikeIncrement override ty minBD nowMs <
      suggestionTargetOf
        (suggestionEntry side price iv r otmPct conf.strikeIncrement override ty minBD nowMs)
        tpm := by
  have hE : (0:ℝ) <
      suggestionEntry side price iv r otmPct conf.strikeIncrement override ty minBD nowMs :=
    lt_trans (by norm_num) he
  have hslpR : (0:ℝ) < (slp : ℝ) := by exact_mod_cast h1
  have hslpR2 : ((slp : ℝ)) < 1 := by exact_mod_cast h2
  have htpmR : (0:ℝ) < (tpm : ℝ) := by exact_mod_cast h3
  refine ⟨?_, ?_, ?_, ?_, ?_⟩
  · simp only [buildSuggestion, pickContract, hconf, Except.map]
  · simp only [buildSuggestion, pickContract, hconf, Except.map]
  · simp only [buildSuggestion, pickContract, hconf, Except.map]
  · unfold suggestionStopOf
    apply max_lt he
    nlinarith
  · unfold suggestionTargetOf
    nlinarith

theorem buildSuggestion_premium_ordering_witness :
    OPTION_CONFIG "SPY" = some ⟨100, 1⟩ ∧ (0:ℚ) < 1/2 ∧ (1/2:ℚ) < 1 ∧ (0:ℚ) < 2 ∧
    (1/100 : ℝ) < suggestionEntry OptionSide.call 500 (2/10) (1/100) (-(1/10)) 1
      (some 20000) "weekly" 2 (20000 * 86400000 + 72000000) ∧
    suggestionStopOf (suggestionEntry OptionSide.call 500 (2/10) (1/100) (-(1/10)) 1
        (some 20000) "weekly" 2 (20000 * 86400000 + 72000000)) (1/2) <
      suggestionEntry OptionSide.call 500 (2/10) (1/100) (-(1/10)) 1
        (some 20000) "weekly" 2 (20000 * 86400000 + 72000000) := by
  have hconf : OPTION_CONFIG "SPY" = some ⟨100, 1⟩ := by decide
  have hstrike : strikeOf OptionSide.call 500 (-(1/10)) 1 = 450 := by
    norm_num [strikeOf, ceilStrike]
  have hentry : suggestionEntry OptionSide.call 500 (2/10) (1/100) (-(1/10)) 1
      (some 20000) "weekly" 2 (20000 * 86400000 + 72000000) = 50 := by
    unfold suggestionEntry
    rw [suggestionT_at_close, hstrike]
    unfold bsOptionPrice
    rw [if_pos (Or.inl le_rfl)]
    norm_num
  have he : (1/100 : ℝ) < suggestionEntry OptionSide.call 500 (2/10) (1/100) (-(1/10)) 1
      (some 20000) "weekly" 2 (20000 * 86400000 + 72000000) := by
    rw [hentry]
    norm_num
  have hthm := buildSuggestion_premium_ordering "SPY" OptionSide.call 500 (2/10) (1/100)
    (-(1/10)) (1/2) 2 (some 20000) "weekly" 2 (20000 * 86400000 + 72000000) ⟨100, 1⟩ hconf
    (by norm_num) (by norm_num) (by norm_num) he
  exact ⟨hconf, by norm_num, by norm_num, by norm_num, he, hthm.2.2.2.1⟩

end TradeStreamer
